import Mathlib

/-!
Verification of the portfolio report generator (`report.py`).

The development shallowly embeds the data-transformation core of the script:
dates and spreadsheet cells become inductive types, pandas/openpyxl reads
become lists, monetary amounts become rationals, CPython float formatting
is modelled as exact rational rounding, and the two chart-rendering
functions are modelled up to their data pipeline (the matplotlib rasteriser
itself is treated as a total encoding of the chart data).  Fallible steps
(`pd.to_datetime`, `iloc[-1]`, cell-lookup `.values[0]`, the upward row
scan) return `Except`, mirroring the Python exceptions that the chart
functions catch and convert to an empty-string result.
-/

namespace Report

/-- A calendar date as produced by `pd.to_datetime` / `openpyxl`. -/
structure Dte where
  year : Nat
  month : Nat
  day : Nat
deriving DecidableEq

/-- Chronological sort key of a date; faithful for calendar dates
(month below 100, day below 100). -/
def Dte.key (d : Dte) : Nat := d.year * 10000 + d.month * 100 + d.day

/-- Decimal digit rendering with explicit fuel, structurally recursive so the
kernel can evaluate it. -/
def pyDigitsGo : Nat → Nat → List Char → List Char
  | 0, _, acc => acc
  | fuel + 1, n, acc =>
    if n < 10 then Nat.digitChar n :: acc
    else pyDigitsGo fuel (n / 10) (Nat.digitChar (n % 10) :: acc)

/-- The character list of Python `str(n)` for a natural number `n`. -/
def pyDigits (n : Nat) : List Char := pyDigitsGo (n + 1) n []

/-- Python `str(n)` for a natural number. -/
def pyStr (n : Nat) : String := String.mk (pyDigits n)

/-- The last `n` characters (Python slice `s[-n:]`). -/
def takeLastN (n : Nat) (l : List Char) : List Char := l.drop (l.length - n)

/-- All but the last `n` characters (Python slice `s[:-n]`). -/
def dropLastN (n : Nat) (l : List Char) : List Char := l.take (l.length - n)

/-- `get_financial_year` from `report.py`: fiscal-year label of a date;
`str(year)[-2:]` is rendered by `takeLastN 2` on decimal digits. -/
def get_financial_year (dt : Dte) : String :=
  if 4 ≤ dt.month then
    "FY " ++ pyStr dt.year ++ "-" ++ String.mk (takeLastN 2 (pyDigits (dt.year + 1)))
  else
    "FY " ++ pyStr (dt.year - 1) ++ "-" ++ String.mk (takeLastN 2 (pyDigits dt.year))

/-- Fiscal-year label following the wording of the specification: the label
of the fiscal year starting in calendar year `y` is "FY y-" followed by the
two digits of `(y + 1) % 100`. -/
def fyLabelSpec (y : Nat) : String :=
  "FY " ++ pyStr y ++ "-" ++
    String.mk [Nat.digitChar ((y + 1) % 100 / 10), Nat.digitChar ((y + 1) % 100 % 10)]

/-- Rounding of `f-string` formatting, modelled as exact rational rounding
(half away from zero upward); CPython rounds the underlying binary double
half-to-even, which differs only on exact half-way values. -/
def qRoundHalfUp (q : ℚ) : ℤ := Int.fdiv (2 * q.num + (q.den : ℤ)) (2 * (q.den : ℤ))

/-- The integer number of hundredths rendered by `f"{amount:.2f}"`,
without the sign. -/
def cents (q : ℚ) : Nat := (qRoundHalfUp (q * 100)).natAbs

/-- Digits of the integer part of `f"{amount:.2f}"` (sign excluded). -/
def intChars (q : ℚ) : List Char := pyDigits (cents q / 100)

/-- The two decimal digits of `f"{amount:.2f}"`. -/
def decChars (q : ℚ) : List Char :=
  [Nat.digitChar (cents q % 100 / 10), Nat.digitChar (cents q % 100 % 10)]

/-- The grouping loop of `format_indian_currency`, with explicit fuel: while
more than two characters remain, peel off the last two as a group; a final
nonempty remainder becomes the last group.  Groups are returned in the order
the Python loop appends them (rightmost pair first). -/
def grpGo : Nat → List Char → List (List Char)
  | 0, _ => []
  | fuel + 1, remaining =>
    if 2 < remaining.length then takeLastN 2 remaining :: grpGo fuel (dropLastN 2 remaining)
    else if remaining.isEmpty then [] else [remaining]

/-- The grouping loop with enough fuel to run to completion. -/
def grpLoop (remaining : List Char) : List (List Char) := grpGo (remaining.length + 1) remaining

/-- Grouping of the integer part in `format_indian_currency`: up to three
characters are kept as is; otherwise the last three characters form one
group and the remainder is grouped in pairs from the right, all groups
joined by commas.  Note that the Python code applies this to the signed
integer-part string, so a minus sign participates in the grouping. -/
def indianGroup (integerPart : List Char) : List Char :=
  if integerPart.length ≤ 3 then integerPart
  else
    List.intercalate [','] ((grpLoop (dropLastN 3 integerPart)).reverse)
      ++ ',' :: takeLastN 3 integerPart

/-- `format_indian_currency` from `report.py`: zero maps to "₹ 0.00";
otherwise the value is rendered with two decimals and the (signed) integer
part is comma-grouped by `indianGroup`. -/
def format_indian_currency (q : ℚ) : String :=
  if q = 0 then "₹ 0.00"
  else
    "₹ " ++ String.mk (indianGroup ((if q < 0 then ['-'] else []) ++ intChars q))
      ++ "." ++ String.mk (decChars q)

/-- Currency formatting following the wording of the specification: the
digits of the integer part (sign excluded) are grouped by the Indian
convention — last three digits one group, remaining digits in pairs from
the right — and the sign is prefixed to the grouped digits. -/
def format_currency_spec (q : ℚ) : String :=
  if q = 0 then "₹ 0.00"
  else
    "₹ " ++ String.mk ((if q < 0 then ['-'] else []) ++ indianGroup (intChars q))
      ++ "." ++ String.mk (decChars q)

/-- A spreadsheet cell value as seen through openpyxl: empty, numeric, or text. -/
inductive PyVal where
  | none_ : PyVal
  | num : ℚ → PyVal
  | s : String → PyVal
deriving DecidableEq

/-- A ledger date cell: either parsed by `pd.to_datetime` or unparseable
(in which case `pd.to_datetime` raises). -/
inductive DateCell where
  | d : Dte → DateCell
  | bad : DateCell
deriving DecidableEq

/-- A raw row of the "Capital Contribution" sheet (columns A, B, D);
`none` amounts model NaN cells. -/
structure LedgerRow where
  date : DateCell
  added : Option ℚ
  withdrawn : Option ℚ
deriving DecidableEq

/-- A ledger row after NaN-coercion of the amounts. -/
structure CRow where
  date : DateCell
  added : ℚ
  withdrawn : ℚ
deriving DecidableEq

/-- A qualifying cash-flow row with its parsed date. -/
structure Flow where
  date : Dte
  added : ℚ
  withdrawn : ℚ
deriving DecidableEq

/-- One row of the grouped fiscal-year frame: label, representative (max)
date, summed amounts, net amount, and the running cumulative total. -/
structure Bucket where
  label : String
  repDate : Dte
  added : ℚ
  withdrawn : ℚ
  net : ℚ
  cum : ℚ
deriving DecidableEq

/-- A raw row of the "Performance Report" sheet, columns A:B. -/
structure PerfRow where
  date : DateCell
  value : ℚ
deriving DecidableEq

/-- A parsed valuation row. -/
structure ValRow where
  date : Dte
  value : ℚ
deriving DecidableEq

/-- NaN-coercion of the two amount columns (`0 if pd.isna(x) else x`). -/
def coerceRows (l : List LedgerRow) : List CRow :=
  l.map fun r => ⟨r.date, r.added.getD 0, r.withdrawn.getD 0⟩

/-- The rows kept by the filter `(added != 0) | (withdrawn != 0)`. -/
def qualifying (l : List LedgerRow) : List CRow :=
  (coerceRows l).filter fun r => decide (r.added ≠ 0 ∨ r.withdrawn ≠ 0)

/-- `pd.to_datetime` over the whole date column: fails if any kept row has
an unparseable date. -/
def parseDates : List CRow → Except String (List Flow)
  | [] => .ok []
  | r :: t =>
    match r.date with
    | .bad => .error "to_datetime"
    | .d dv =>
      match parseDates t with
      | .error e => .error e
      | .ok fs => .ok (⟨dv, r.added, r.withdrawn⟩ :: fs)

/-- Maximum of a list of dates (pandas `"Date": "max"` over a nonempty group). -/
def maxDte (l : List Dte) : Dte :=
  l.foldl (fun a b => if a.key < b.key then b else a) ⟨0, 0, 0⟩

/-- The pandas `groupby("Financial Year").agg` frame.  Groups are listed in
first-occurrence order; pandas sorts group keys, but the series is re-sorted
by representative date afterwards, and distinct labels always have distinct
representative dates (a date determines its label), so the group order is
immaterial to everything downstream. -/
def groupsOf (flows : List Flow) : List Bucket :=
  ((flows.map fun f => get_financial_year f.date).eraseDups).map fun L =>
    let sub := flows.filter fun f => get_financial_year f.date == L
    let a := (sub.map Flow.added).sum
    let w := (sub.map Flow.withdrawn).sum
    { label := L, repDate := maxDte (sub.map Flow.date), added := a, withdrawn := w,
      net := a - w, cum := 0 }

/-- Order of buckets by representative date (the `sort_values("Date")` key). -/
def bLE (a b : Bucket) : Prop := a.repDate.key ≤ b.repDate.key

instance : DecidableRel bLE := fun _ _ => inferInstanceAs (Decidable (_ ≤ _))

instance : IsTotal Bucket bLE := ⟨fun a b => Nat.le_total a.repDate.key b.repDate.key⟩

instance : IsTrans Bucket bLE := ⟨fun _ _ _ => Nat.le_trans⟩

/-- The running `cumsum` over net amounts, assigned into the `cum` field. -/
def cumulative (acc : ℚ) : List Bucket → List Bucket
  | [] => []
  | b :: t => { b with cum := acc + b.net } :: cumulative (acc + b.net) t

/-- Grouping, zero-net filtering, sort by date, and cumulative sum
(lines 174-188 of `report.py`). -/
def buildBuckets (flows : List Flow) : List Bucket :=
  cumulative 0 (List.insertionSort bLE ((groupsOf flows).filter fun b => decide (b.net ≠ 0)))

/-- The fiscal-year bucket frame computed from the ledger sheet. -/
def bucketsOfE (ledger : List LedgerRow) : Except String (List Bucket) :=
  match parseDates (qualifying ledger) with
  | .error e => .error e
  | .ok fs => .ok (buildBuckets fs)

/-- `pd.to_datetime` over the date column of the valuation sheet. -/
def valParsed : List PerfRow → Except String (List ValRow)
  | [] => .ok []
  | r :: t =>
    match r.date with
    | .bad => .error "to_datetime"
    | .d dv =>
      match valParsed t with
      | .error e => .error e
      | .ok vs => .ok (⟨dv, r.value⟩ :: vs)

/-- `perf_df.iloc[-1]`: the last valuation row; raises on an empty sheet. -/
def latestOfE (perfAB : List PerfRow) : Except String ValRow :=
  match valParsed perfAB with
  | .error e => .error e
  | .ok vs =>
    match vs.getLast? with
    | some v => .ok v
    | none => .error "iloc"

/-- Order of chart points by date. -/
def pLE (a b : Dte × ℚ) : Prop := a.1.key ≤ b.1.key

instance : DecidableRel pLE := fun _ _ => inferInstanceAs (Decidable (_ ≤ _))

instance : IsTotal (Dte × ℚ) pLE := ⟨fun a b => Nat.le_total a.1.key b.1.key⟩

instance : IsTrans (Dte × ℚ) pLE := ⟨fun _ _ _ => Nat.le_trans⟩

/-- The chart series: bucket points (representative date, cumulative total)
with the valuation point appended, then re-sorted by date
(`chart_df.sort_values("Date")`). -/
def chartSeries (bs : List Bucket) (vp : Dte × ℚ) : List (Dte × ℚ) :=
  List.insertionSort pLE ((bs.map fun b => (b.repDate, b.cum)) ++ [vp])

/-- Abbreviated month name for `strftime("%b")`. -/
def monthAbbrev : Nat → String
  | 1 => "Jan"
  | 2 => "Feb"
  | 3 => "Mar"
  | 4 => "Apr"
  | 5 => "May"
  | 6 => "Jun"
  | 7 => "Jul"
  | 8 => "Aug"
  | 9 => "Sep"
  | 10 => "Oct"
  | 11 => "Nov"
  | 12 => "Dec"
  | _ => ""

/-- Zero-padded two-digit rendering (for day numbers below 100). -/
def twoPad (n : Nat) : String := String.mk [Nat.digitChar (n / 10 % 10), Nat.digitChar (n % 10)]

/-- `strftime("%d-%b-%Y")`, the x-axis label of the terminal point. -/
def strftimeDMY (dt : Dte) : String :=
  twoPad dt.day ++ "-" ++ monthAbbrev dt.month ++ "-" ++ pyStr dt.year

/-- The x-label loop (lines 222-228): every point except the last is looked
up in the grouped frame by its date (`.values[0]` raises `IndexError` when
the date matches no bucket); the last point gets a calendar-date label.
The net-amount lookups of the annotation loop hit the same buckets, so they
succeed exactly when these do. -/
def buildLabelsGo (bs : List Bucket) (total : Nat) : Nat → List (Dte × ℚ) → Except String (List String)
  | _, [] => .ok []
  | i, p :: t =>
    match
      (if i + 1 < total then
        match bs.find? (fun b => b.repDate == p.1) with
        | some b => Except.ok b.label
        | none => Except.error "IndexError"
      else Except.ok (strftimeDMY p.1)) with
    | .error e => .error e
    | .ok lab =>
      match buildLabelsGo bs total (i + 1) t with
      | .error e => .error e
      | .ok ls => .ok (lab :: ls)

/-- X-axis labels for the whole series. -/
def buildLabels (bs : List Bucket) (pts : List (Dte × ℚ)) : Except String (List String) :=
  buildLabelsGo bs pts.length 0 pts

/-- The data pipeline of `generate_performance_chart`: buckets, latest
valuation row, sorted series, x-labels.  Any raising step yields `.error`,
which the Python function catches. -/
def perfData (ledger : List LedgerRow) (perfAB : List PerfRow) :
    Except String (List (Dte × ℚ) × List String) :=
  match bucketsOfE ledger with
  | .error e => .error e
  | .ok bs =>
    match latestOfE perfAB with
    | .error e => .error e
    | .ok v =>
      match buildLabels bs (chartSeries bs (v.date, v.value)) with
      | .error e => .error e
      | .ok ls => .ok (chartSeries bs (v.date, v.value), ls)

/-- The matplotlib rasteriser, modelled as a total encoding of the chart
data; the result is never the empty string. -/
def renderPerf (dta : List (Dte × ℚ) × List String) : String :=
  String.mk ('p' :: 'n' :: 'g' :: ':' :: pyDigits dta.1.length)

/-- `generate_performance_chart`: the base64 image on success, `""` when any
step of the pipeline raised. -/
def generate_performance_chart (ledger : List LedgerRow) (perfAB : List PerfRow) : String :=
  match perfData ledger perfAB with
  | .ok dta => renderPerf dta
  | .error _ => ""

/-- A sheet as read through openpyxl: a list of rows of cell values. -/
abbrev Sheet := List (List PyVal)

/-- `ws.cell(row=r, column=c).value` with 1-based indices; cells outside the
stored area read as empty. -/
def cellAt (ws : Sheet) (r c : Nat) : PyVal := (ws.getD (r - 1) []).getD (c - 1) .none_

/-- Python falsiness of a cell value: `None`, the number 0, or the empty
string (booleans are not modelled). -/
def falsy : PyVal → Bool
  | .none_ => true
  | .num q => decide (q = 0)
  | .s t => decide (t = "")

/-- The upward scan `while not ws.cell(row=last_row, column=1).value:
last_row -= 1`; reaching row 0 raises (`none`). -/
def scanUp (ws : Sheet) : Nat → Option Nat
  | 0 => none
  | r + 1 => if falsy (cellAt ws (r + 1) 1) then scanUp ws r else some (r + 1)

/-- The selected snapshot row: the scan started at `ws.max_row`. -/
def lastPopRow (ws : Sheet) : Option Nat := scanUp ws ws.length

/-- Python `value or 0`: a falsy cell becomes the number 0. -/
def orZeroV (v : PyVal) : PyVal := if falsy v then .num 0 else v

/-- `f"{amount:.2f}"` as a string (sign, integer digits, two decimals). -/
def fixed2Str (q : ℚ) : String :=
  (if q < 0 then "-" else "") ++ String.mk (intChars q) ++ "." ++ String.mk (decChars q)

/-- `f"{v:.2%}"`: the value times 100 with two decimals and a percent sign. -/
def pyPct2 (q : ℚ) : String := fixed2Str (q * 100) ++ "%"

/-- `f"{v:.2%}" if isinstance(v, (int, float)) else str(v or "0%")`. -/
def pctStrOf (v : PyVal) : String :=
  match v with
  | .num q => pyPct2 q
  | .none_ => "0%"
  | .s t => if t = "" then "0%" else t

/-- The bar height `v * 100 if isinstance(v, (int, float)) else 0` of the
annualised-return subplot. -/
def barOf (v : PyVal) : ℚ :=
  match v with
  | .num q => q * 100
  | _ => 0

/-- The snapshot values read by `generate_comparison_chart` from the
selected row: columns B, E (values after `or 0`), D, G (percent strings),
K, L (XIRR strings and bar heights). -/
structure Comp where
  pinkbullValue : PyVal
  marketValue : PyVal
  pinkbullPct : String
  marketPct : String
  pinkbullXirrStr : String
  marketXirrStr : String
  pinkbullXirrBar : ℚ
  marketXirrBar : ℚ
deriving DecidableEq

/-- The data pipeline of `generate_comparison_chart`; an unpopulated sheet
makes the scan underflow and raise.  (Rendering of non-numeric bar values,
which matplotlib would reject, is not modelled.) -/
def compData (ws : Sheet) : Except String Comp :=
  match lastPopRow ws with
  | none => .error "cell row 0"
  | some r =>
    .ok { pinkbullValue := orZeroV (cellAt ws r 2)
          marketValue := orZeroV (cellAt ws r 5)
          pinkbullPct := pctStrOf (cellAt ws r 4)
          marketPct := pctStrOf (cellAt ws r 7)
          pinkbullXirrStr := pctStrOf (orZeroV (cellAt ws r 11))
          marketXirrStr := pctStrOf (orZeroV (cellAt ws r 12))
          pinkbullXirrBar := barOf (orZeroV (cellAt ws r 11))
          marketXirrBar := barOf (orZeroV (cellAt ws r 12)) }

/-- The comparison-chart rasteriser, modelled as a total nonempty encoding. -/
def renderComp (c : Comp) : String :=
  String.mk ('p' :: 'n' :: 'g' :: ':' :: c.pinkbullPct.data)

/-- `generate_comparison_chart`: the base64 image on success, `""` when the
pipeline raised. -/
def generate_comparison_chart (ws : Sheet) : String :=
  match compData ws with
  | .ok c => renderComp c
  | .error _ => ""

/-- The fallback sentence of `get_appreciation_text`. -/
def appreciationFallback : String := "<i>YOUR PORTFOLIO INVESTMENT PERFORMANCE SUMMARY</i>"

/-- `get_appreciation_text`: reads columns C and D of the snapshot row;
falsy cells produce empty fragments and fall back to the default sentence.
The surrounding HTML attributes are elided. -/
def get_appreciation_text (ws : Sheet) : String :=
  match lastPopRow ws with
  | none => appreciationFallback
  | some r =>
    let absText :=
      if falsy (cellAt ws r 3) then ""
      else
        match cellAt ws r 3 with
        | .num q => format_indian_currency q
        | .s t => t
        | .none_ => ""
    let pctText :=
      if falsy (cellAt ws r 4) then ""
      else
        match cellAt ws r 4 with
        | .num q => pyPct2 q
        | .s t => t
        | .none_ => ""
    if absText = "" ∧ pctText = "" then appreciationFallback
    else
      "<p>YOUR PORTFOLIO INVESTMENT VALUE HAS INCREASED BY " ++ absText ++ " OR "
        ++ pctText ++ " ON ACCOUNT OF MARKET APPRECIATION.</p>"

/-- Full month name for `strftime("%B")`. -/
def monthFull : Nat → String
  | 1 => "January"
  | 2 => "February"
  | 3 => "March"
  | 4 => "April"
  | 5 => "May"
  | 6 => "June"
  | 7 => "July"
  | 8 => "August"
  | 9 => "September"
  | 10 => "October"
  | 11 => "November"
  | 12 => "December"
  | _ => ""

/-- `strftime("%d %B %Y")`, the cover-page date. -/
def strftimeDBY (dt : Dte) : String :=
  twoPad dt.day ++ " " ++ monthFull dt.month ++ " " ++ pyStr dt.year

/-- `build_4page_html`: the static template markup is elided; the dynamic
interpolations appear in document order. -/
def build_4page_html (clientName : String) (reportDt : Dte) (perf comp appr : String)
    (fontSize : Nat) : String :=
  "<html>" ++ clientName.toUpper ++ "|" ++ (strftimeDBY reportDt).toUpper ++ "|"
    ++ pyStr fontSize ++ "|data:image/png;base64," ++ perf ++ "|" ++ appr
    ++ "|data:image/png;base64," ++ comp ++ "</html>"

/-- The weasyprint `write_pdf` call, modelled as a total injective encoding. -/
def write_pdf (html : String) : String := "pdf:" ++ html

/-- `build_client_pdf_bytes`: generates both charts and the appreciation
text, raises "Failed to generate charts" when either chart is empty, and
otherwise renders the composed document. -/
def build_client_pdf_bytes (ledger : List LedgerRow) (perfAB : List PerfRow) (ws : Sheet)
    (clientName : String) (reportDt : Dte) (fontSize : Nat) : Except String String :=
  let perf := generate_performance_chart ledger perfAB
  let comp := generate_comparison_chart ws
  let appr := get_appreciation_text ws
  if perf = "" ∨ comp = "" then .error "Failed to generate charts"
  else .ok (write_pdf (build_4page_html clientName reportDt perf comp appr fontSize))

/-- Strip of currency markup in `clean_number`:
`str(x).replace("₹", "").replace(",", "").strip()`. -/
def stripCurrency (t : String) : String := ((t.replace "₹" "").replace "," "").trim

/-- Value of a digit string. -/
def digitsVal (cs : List Char) : ℚ :=
  cs.foldl (fun acc c => acc * 10 + ((c.toNat - 48 : Nat) : ℚ)) 0

/-- Python `float(...)` on a plain decimal literal (sign, digits, optional
point); exotic float syntax such as exponents is not modelled. -/
def parseFloatChars (cs : List Char) : Option ℚ :=
  let sign : ℚ := match cs with
    | '-' :: _ => -1
    | _ => 1
  let rest : List Char := match cs with
    | '-' :: t => t
    | '+' :: t => t
    | _ => cs
  let ip := rest.takeWhile Char.isDigit
  match rest.dropWhile Char.isDigit with
  | [] => if ip.isEmpty then none else some (sign * digitsVal ip)
  | '.' :: fp =>
    if fp.all Char.isDigit && (!ip.isEmpty || !fp.isEmpty) then
      some (sign * (digitsVal ip + digitsVal fp / (10 : ℚ) ^ fp.length))
    else none
  | _ => none

/-- `clean_number` from `report.py`: coerce a cell value to a float; the
strings "", "nan", "None" and anything `float()` rejects coerce to 0.
This helper is defined in the script but never called by the pipeline. -/
def clean_number (v : PyVal) : ℚ :=
  match v with
  | .num q => q
  | .none_ => 0
  | .s t =>
    let x := stripCurrency t
    if x = "" ∨ x = "nan" ∨ x = "None" then 0
    else
      match parseFloatChars x.data with
      | some q => q
      | none => 0

/-- Index of the last dot of a filename, for `os.path.splitext`. -/
def lastDotIdx (cs : List Char) : Option Nat :=
  ((cs.enum.filter fun pr => pr.2 == '.').map fun pr => pr.1).getLast?

/-- `os.path.splitext(...)[0]`: drop the extension at the last dot unless
all preceding characters are dots (path separators are not modelled). -/
def splitext (str : String) : String :=
  match lastDotIdx str.data with
  | none => str
  | some i =>
    if (str.data.take i).any (fun c => c != '.') then String.mk (str.data.take i) else str

/-- Python `str.title()` over ASCII: uppercase a letter that follows a
non-letter, lowercase the rest. -/
def titleGo : Bool → List Char → List Char
  | _, [] => []
  | prevAlpha, c :: t =>
    (if c.isAlpha then (if prevAlpha then c.toLower else c.toUpper) else c) :: titleGo c.isAlpha t

/-- Python `str.title()`. -/
def pyTitle (str : String) : String := String.mk (titleGo false str.data)

/-- `extract_client_name_from_filename`: with at least four
underscore-delimited tokens in the stem, join tokens `[2:-1]` with spaces
and title-case; otherwise return "Client". -/
def extract_client_name_from_filename (filename : String) : String :=
  let parts := (splitext filename).splitOn "_"
  if 4 ≤ parts.length then pyTitle (String.intercalate " " ((parts.drop 2).dropLast))
  else "Client"

instance exceptDecEq {ε α : Type} [DecidableEq ε] [DecidableEq α] : DecidableEq (Except ε α) :=
  fun x y =>
    match x, y with
    | .error a, .error b =>
      if h : a = b then .isTrue (by rw [h]) else .isFalse (fun hh => by cases hh; exact h rfl)
    | .ok a, .ok b =>
      if h : a = b then .isTrue (by rw [h]) else .isFalse (fun hh => by cases hh; exact h rfl)
    | .error _, .ok _ => .isFalse (fun hh => by cases hh)
    | .ok _, .error _ => .isFalse (fun hh => by cases hh)

theorem pyDigitsGo_acc (fuel : Nat) :
    ∀ (n : Nat) (acc : List Char),
      pyDigitsGo fuel n acc = pyDigitsGo fuel n [] ++ acc := by
  induction fuel with
  | zero => intro n acc; rfl
  | succ fuel ih =>
    intro n acc
    by_cases h : n < 10
    · simp [pyDigitsGo, h]
    · simp only [pyDigitsGo, h, if_false]
      rw [ih (n / 10) (Nat.digitChar (n % 10) :: acc),
          ih (n / 10) [Nat.digitChar (n % 10)]]
      simp

theorem pyDigitsGo_fuel :
    ∀ (f₁ f₂ n : Nat), n < f₁ → n < f₂ →
      pyDigitsGo f₁ n [] = pyDigitsGo f₂ n [] := by
  intro f₁
  induction f₁ with
  | zero => intro f₂ n h; omega
  | succ f ih =>
    intro f₂ n h₁ h₂
    cases f₂ with
    | zero => omega
    | succ f' =>
      by_cases h : n < 10
      · simp [pyDigitsGo, h]
      · simp only [pyDigitsGo, h, if_false]
        rw [pyDigitsGo_acc f, pyDigitsGo_acc f']
        have hn : 0 < n := by omega
        have : n / 10 < n := Nat.div_lt_self hn (by omega)
        rw [ih f' (n / 10) (by omega) (by omega)]

/-- The defining recursion of decimal rendering. -/
theorem pyDigits_eq (n : Nat) :
    pyDigits n =
      if n < 10 then [Nat.digitChar n]
      else pyDigits (n / 10) ++ [Nat.digitChar (n % 10)] := by
  by_cases h : n < 10
  · simp [pyDigits, pyDigitsGo, h]
  · simp only [h, if_false]
    show pyDigitsGo (n + 1) n [] = _
    simp only [pyDigitsGo, h, if_false]
    rw [pyDigitsGo_acc n]
    have hn : 0 < n := by omega
    have hd : n / 10 < n := Nat.div_lt_self hn (by omega)
    rw [pyDigitsGo_fuel n (n / 10 + 1) (n / 10) (by omega) (by omega)]
    rfl

theorem pyDigits_getLast? (n : Nat) :
    (pyDigits n).getLast? = some (Nat.digitChar (n % 10)) := by
  rw [pyDigits_eq]
  by_cases h : n < 10
  · simp [h, Nat.mod_eq_of_lt h]
  · simp [h]

theorem drop_length_sub_one :
    ∀ (l : List Char) (a : Char), l.getLast? = some a → l.drop (l.length - 1) = [a] := by
  intro l
  induction l with
  | nil => intro a h; simp at h
  | cons x t ih =>
    intro a h
    cases t with
    | nil => simp at h; simp [h]
    | cons y t' =>
      rw [List.getLast?_cons_cons] at h
      have hlen : (x :: y :: t').length - 1 = (y :: t').length := by simp
      rw [hlen]
      show (y :: t').drop ((y :: t').length - 1 + 1 - 1) = _
      simp only [Nat.add_sub_cancel]
      exact ih a h

/-- Python `str(n)[-2:]` agrees with the zero-padded two-digit rendering of
`n % 100` whenever `n` has at least two digits. -/
theorem takeLastN_two_pyDigits (n : Nat) (h : 10 ≤ n) :
    takeLastN 2 (pyDigits n) =
      [Nat.digitChar (n % 100 / 10), Nat.digitChar (n % 100 % 10)] := by
  have h10 : ¬ n < 10 := by omega
  have hrec : pyDigits n = pyDigits (n / 10) ++ [Nat.digitChar (n % 10)] := by
    rw [pyDigits_eq]; simp [h10]
  rw [takeLastN, hrec]
  rw [List.length_append, List.length_singleton]
  have hidx : (pyDigits (n / 10)).length + 1 - 2 = (pyDigits (n / 10)).length - 1 := by
    omega
  rw [hidx, List.drop_append_eq_append_drop]
  have : (pyDigits (n / 10)).length - 1 - (pyDigits (n / 10)).length = 0 := by omega
  rw [this, List.drop_zero, drop_length_sub_one _ _ (pyDigits_getLast? (n / 10))]
  have e1 : n / 10 % 10 = n % 100 / 10 := by omega
  have e2 : n % 10 = n % 100 % 10 := by omega
  rw [e1, e2]
  rfl

/-- C1: fiscal-year label assignment is the deterministic function of the
date given by the spec: a month of April or later in year `Y` yields
"FY Y-(Y+1 mod 100)" and an earlier month yields "FY (Y-1)-(Y mod 100)";
moreover April 1 of year `Y` and March 31 of year `Y + 1` always receive
the same label.  (Years are assumed to have at least two digits, as the
two-digit suffix of a one-digit year is not zero-padded by Python.) -/
theorem fiscal_year_label_spec :
    (∀ dt : Dte, 10 ≤ dt.year →
      get_financial_year dt =
        if 4 ≤ dt.month then fyLabelSpec dt.year else fyLabelSpec (dt.year - 1)) ∧
    (∀ y : Nat, get_financial_year ⟨y, 4, 1⟩ = get_financial_year ⟨y + 1, 3, 31⟩) := by
  constructor
  · intro dt hy
    by_cases hm : 4 ≤ dt.month
    · simp only [get_financial_year, hm, if_true, fyLabelSpec]
      rw [takeLastN_two_pyDigits (dt.year + 1) (by omega)]
    · simp only [get_financial_year, hm, if_false, fyLabelSpec]
      rw [takeLastN_two_pyDigits dt.year (by omega)]
      have : dt.year - 1 + 1 = dt.year := by omega
      rw [this]
  · intro y
    simp only [get_financial_year]
    norm_num

/-- Witness for C1 at the concrete date 2023-04-01. -/
theorem fiscal_year_label_spec_witness :
    10 ≤ (⟨2023, 4, 1⟩ : Dte).year ∧
      get_financial_year ⟨2023, 4, 1⟩ =
        if 4 ≤ (⟨2023, 4, 1⟩ : Dte).month then fyLabelSpec 2023 else fyLabelSpec 2022 :=
  ⟨by decide, fiscal_year_label_spec.1 ⟨2023, 4, 1⟩ (by decide)⟩

/-- C5 counterexample: on the negative amount -12345.67 the code groups the
minus sign as if it were a digit, producing "₹ -,12,345.67", which is not
the Indian-convention grouping "₹ -12,345.67"; hence the claim fails for
some non-zero amounts. -/
theorem format_currency_negative_cex :
    format_indian_currency (-1234567 / 100 : ℚ) = "₹ -,12,345.67" ∧
    format_currency_spec (-1234567 / 100 : ℚ) = "₹ -12,345.67" ∧
    format_indian_currency (-1234567 / 100 : ℚ) ≠ format_currency_spec (-1234567 / 100 : ℚ) :=
  ⟨by with_unfolding_all decide, by with_unfolding_all decide, by with_unfolding_all decide⟩

/-- C5 as amended: zero maps to "₹ 0.00"; every positive amount is rendered
with two decimals and Indian-convention grouping of the integer digits; in
particular 1234567.5 renders as "₹ 12,34,567.50". -/
theorem format_currency_indian :
    format_indian_currency 0 = "₹ 0.00" ∧
    (∀ q : ℚ, 0 < q → format_indian_currency q = format_currency_spec q) ∧
    format_indian_currency (12345675 / 10 : ℚ) = "₹ 12,34,567.50" := by
  refine ⟨by simp [format_indian_currency], ?_, by with_unfolding_all decide⟩
  intro q hq
  have h0 : q ≠ 0 := ne_of_gt hq
  have hneg : ¬ q < 0 := not_lt.mpr hq.le
  simp [format_indian_currency, format_currency_spec, h0, hneg]

/-- Witness for C5 (amended) at the concrete amount 1234567.5. -/
theorem format_currency_indian_witness :
    (0 : ℚ) < 12345675 / 10 ∧
      format_indian_currency (12345675 / 10 : ℚ) = format_currency_spec (12345675 / 10 : ℚ) :=
  ⟨by norm_num, format_currency_indian.2.1 (12345675 / 10 : ℚ) (by norm_num)⟩

theorem renderPerf_ne_empty (dta : List (Dte × ℚ) × List String) : renderPerf dta ≠ "" :=
  fun h => List.cons_ne_nil _ _ (congrArg String.data h)

theorem renderComp_ne_empty (c : Comp) : renderComp c ≠ "" :=
  fun h => List.cons_ne_nil _ _ (congrArg String.data h)

theorem mem_cumulative :
    ∀ (acc : ℚ) (l : List Bucket) (b : Bucket), b ∈ cumulative acc l →
      ∃ y ∈ l, b.repDate = y.repDate ∧ b.net = y.net := by
  intro acc l
  induction l generalizing acc with
  | nil => intro b h; simp [cumulative] at h
  | cons x t ih =>
    intro b h
    simp only [cumulative, List.mem_cons] at h
    rcases h with rfl | h
    · exact ⟨x, List.mem_cons_self x t, rfl, rfl⟩
    · obtain ⟨y, hy, h1, h2⟩ := ih (acc + x.net) b h
      exact ⟨y, List.mem_cons_of_mem x hy, h1, h2⟩

theorem cumulative_pairwise :
    ∀ (acc : ℚ) (l : List Bucket), l.Pairwise bLE → (cumulative acc l).Pairwise bLE := by
  intro acc l
  induction l generalizing acc with
  | nil => intro h; simp [cumulative]
  | cons x t ih =>
    intro h
    rw [List.pairwise_cons] at h
    obtain ⟨hx, ht⟩ := h
    simp only [cumulative]
    rw [List.pairwise_cons]
    refine ⟨?_, ih (acc + x.net) ht⟩
    intro b hb
    obtain ⟨y, hy, h1, _⟩ := mem_cumulative (acc + x.net) t b hb
    have hxy := hx y hy
    simp only [bLE] at hxy ⊢
    rw [h1]
    exact hxy

theorem cumulative_map_net :
    ∀ (acc : ℚ) (l : List Bucket), (cumulative acc l).map Bucket.net = l.map Bucket.net := by
  intro acc l
  induction l generalizing acc with
  | nil => rfl
  | cons x t ih => simp [cumulative, ih]

theorem cumulative_cum :
    ∀ (l : List Bucket) (acc : ℚ) (i : Nat) (b : Bucket),
      (cumulative acc l)[i]? = some b →
      b.cum = acc + ((l.map Bucket.net).take (i + 1)).sum := by
  intro l
  induction l with
  | nil => intro acc i b h; simp [cumulative] at h
  | cons x t ih =>
    intro acc i b h
    cases i with
    | zero =>
      simp only [cumulative, List.getElem?_cons_zero, Option.some.injEq] at h
      subst h
      simp
    | succ i =>
      simp only [cumulative, List.getElem?_cons_succ] at h
      rw [ih (acc + x.net) i b h]
      simp only [List.map_cons, List.take_succ_cons, List.sum_cons]
      ring

/-- The structural facts about the bucket frame: sorted by representative
date, cumulative totals are prefix sums of the nets, and no zero-net
bucket survives. -/
theorem bucketsOfE_ok (ledger : List LedgerRow) (bs : List Bucket)
    (h : bucketsOfE ledger = .ok bs) :
    bs.Pairwise bLE ∧
    (∀ (i : Nat) (b : Bucket), bs[i]? = some b →
      b.cum = ((bs.map Bucket.net).take (i + 1)).sum) ∧
    (∀ b ∈ bs, b.net ≠ 0) := by
  cases hp : parseDates (qualifying ledger) with
  | error e => simp [bucketsOfE, hp] at h
  | ok fs =>
    simp only [bucketsOfE, hp, Except.ok.injEq] at h
    subst h
    refine ⟨cumulative_pairwise 0 _ (List.sorted_insertionSort bLE _), ?_, ?_⟩
    · intro i b hb
      have h2 := cumulative_cum _ 0 i b hb
      rw [h2, zero_add]
      simp only [buildBuckets]
      rw [cumulative_map_net]
    · intro b hb
      obtain ⟨y, hy, _, hnet⟩ := mem_cumulative 0 _ b hb
      have hy2 : y ∈ (groupsOf fs).filter (fun b => decide (b.net ≠ 0)) :=
        (List.Perm.mem_iff (List.perm_insertionSort bLE _)).1 hy
      have hd := (List.mem_filter.1 hy2).2
      rw [hnet]
      exact of_decide_eq_true hd

theorem qualifying_insert_zero (l1 l2 : List LedgerRow) (z : LedgerRow)
    (hz1 : z.added.getD 0 = 0) (hz2 : z.withdrawn.getD 0 = 0) :
    qualifying (l1 ++ z :: l2) = qualifying (l1 ++ l2) := by
  simp only [qualifying, coerceRows, List.map_append, List.map_cons, List.filter_append,
    List.filter_cons]
  rw [hz1, hz2]
  simp

/-- C2: a both-zero cash-flow row (after NaN coercion) contributes to no
bucket and leaves the whole produced chart series unchanged, and no bucket
with zero net amount ever appears in the grouped output. -/
theorem zero_rows_no_contribution :
    ∀ (l1 l2 : List LedgerRow) (z : LedgerRow) (perfAB : List PerfRow),
      z.added.getD 0 = 0 → z.withdrawn.getD 0 = 0 →
      bucketsOfE (l1 ++ z :: l2) = bucketsOfE (l1 ++ l2) ∧
      perfData (l1 ++ z :: l2) perfAB = perfData (l1 ++ l2) perfAB ∧
      generate_performance_chart (l1 ++ z :: l2) perfAB =
        generate_performance_chart (l1 ++ l2) perfAB ∧
      (∀ (bs : List Bucket) (b : Bucket),
        bucketsOfE (l1 ++ z :: l2) = .ok bs → b ∈ bs → b.net ≠ 0) := by
  intro l1 l2 z perfAB hz1 hz2
  have hq := qualifying_insert_zero l1 l2 z hz1 hz2
  have hbe : bucketsOfE (l1 ++ z :: l2) = bucketsOfE (l1 ++ l2) := by
    simp only [bucketsOfE, hq]
  have hpd : perfData (l1 ++ z :: l2) perfAB = perfData (l1 ++ l2) perfAB := by
    simp only [perfData, hbe]
  refine ⟨hbe, hpd, by simp only [generate_performance_chart, hpd], ?_⟩
  intro bs b hok hb
  exact (bucketsOfE_ok _ bs hok).2.2 b hb

/-- Witness for C2: inserting a zero row between two ledger rows leaves the
bucket frame unchanged. -/
theorem zero_rows_no_contribution_witness :
    ((⟨DateCell.d ⟨2023, 1, 1⟩, some 0, none⟩ : LedgerRow).added.getD 0 = 0) ∧
      bucketsOfE ([] ++ ⟨DateCell.d ⟨2023, 1, 1⟩, some 0, none⟩ ::
          [⟨DateCell.d ⟨2023, 5, 1⟩, some 7, none⟩]) =
        bucketsOfE ([] ++ [⟨DateCell.d ⟨2023, 5, 1⟩, some 7, none⟩]) :=
  ⟨rfl,
    (zero_rows_no_contribution [] [⟨DateCell.d ⟨2023, 5, 1⟩, some 7, none⟩]
      ⟨DateCell.d ⟨2023, 1, 1⟩, some 0, none⟩ [] rfl rfl).1⟩

/-- C3: the bucket sequence produced by the aggregator is ordered ascending
by representative date (the maximum date of each group), and the cumulative
total of every bucket is the sum of the net amounts of all buckets up to and
including it in that order. -/
theorem buckets_sorted_cumulative :
    ∀ (ledger : List LedgerRow) (bs : List Bucket), bucketsOfE ledger = .ok bs →
      bs.Pairwise bLE ∧
      ∀ (i : Nat) (b : Bucket), bs[i]? = some b →
        b.cum = ((bs.map Bucket.net).take (i + 1)).sum := by
  intro ledger bs h
  exact ⟨(bucketsOfE_ok ledger bs h).1, (bucketsOfE_ok ledger bs h).2.1⟩

set_option maxRecDepth 4000 in
/-- Witness for C3 on a two-row ledger spanning two fiscal years. -/
theorem buckets_sorted_cumulative_witness :
    bucketsOfE [⟨DateCell.d ⟨2023, 5, 1⟩, some 7, none⟩,
        ⟨DateCell.d ⟨2022, 6, 1⟩, some 5, none⟩] =
      .ok [⟨"FY 2022-23", ⟨2022, 6, 1⟩, 5, 0, 5, 5⟩,
        ⟨"FY 2023-24", ⟨2023, 5, 1⟩, 7, 0, 7, 12⟩] ∧
    ([⟨"FY 2022-23", ⟨2022, 6, 1⟩, 5, 0, 5, 5⟩,
        ⟨"FY 2023-24", ⟨2023, 5, 1⟩, 7, 0, 7, 12⟩] : List Bucket).Pairwise bLE :=
  ⟨by with_unfolding_all decide,
    (buckets_sorted_cumulative
      [⟨DateCell.d ⟨2023, 5, 1⟩, some 7, none⟩, ⟨DateCell.d ⟨2022, 6, 1⟩, some 5, none⟩]
      [⟨"FY 2022-23", ⟨2022, 6, 1⟩, 5, 0, 5, 5⟩,
        ⟨"FY 2023-24", ⟨2023, 5, 1⟩, 7, 0, 7, 12⟩]
      (by with_unfolding_all decide)).1⟩

set_option maxRecDepth 4000 in
/-- C4 counterexample: with one ledger row dated 2023-05-01 and the latest
valuation row dated 2023-04-01, the appended valuation point is re-sorted
in front of the bucket point, so it is not the last point of the series;
moreover the x-label lookup then fails and chart generation returns "". -/
theorem valuation_point_not_last_cex :
    bucketsOfE [⟨DateCell.d ⟨2023, 5, 1⟩, some 7, none⟩] =
      .ok [⟨"FY 2023-24", ⟨2023, 5, 1⟩, 7, 0, 7, 7⟩] ∧
    latestOfE [⟨DateCell.d ⟨2023, 4, 1⟩, 9⟩] = .ok ⟨⟨2023, 4, 1⟩, 9⟩ ∧
    chartSeries [⟨"FY 2023-24", ⟨2023, 5, 1⟩, 7, 0, 7, 7⟩] (⟨2023, 4, 1⟩, 9) =
      [(⟨2023, 4, 1⟩, 9), (⟨2023, 5, 1⟩, 7)] ∧
    (chartSeries [⟨"FY 2023-24", ⟨2023, 5, 1⟩, 7, 0, 7, 7⟩] (⟨2023, 4, 1⟩, 9)).getLast? =
      some (⟨2023, 5, 1⟩, 7) ∧
    generate_performance_chart [⟨DateCell.d ⟨2023, 5, 1⟩, some 7, none⟩]
      [⟨DateCell.d ⟨2023, 4, 1⟩, 9⟩] = "" := by
  refine ⟨?_, ?_, ?_, ?_, ?_⟩ <;> with_unfolding_all decide

/-- C4 as amended: the point built from the latest valuation row carries the
raw portfolio value and is not part of the bucket cumulative sum (the bucket
frame is computed from the ledger alone); after the final sort by date it
occupies the last position of the series provided the representative date
of every bucket precedes the valuation date.  When the valuation date
is instead strictly earlier than some bucket date the point sorts into an
interior position (and, its date matching no bucket, the x-label lookup
raises and rendering fails). -/
theorem valuation_point_terminal :
    ∀ (ledger : List LedgerRow) (perfAB : List PerfRow) (bs : List Bucket) (v : ValRow),
      bucketsOfE ledger = .ok bs →
      latestOfE perfAB = .ok v →
      (∀ b ∈ bs, b.repDate.key < v.date.key) →
      chartSeries bs (v.date, v.value) =
        (bs.map fun b => (b.repDate, b.cum)) ++ [(v.date, v.value)] ∧
      (chartSeries bs (v.date, v.value)).getLast? = some (v.date, v.value) := by
  intro ledger perfAB bs v hb hv hlt
  have hpw : ((bs.map fun b => (b.repDate, b.cum)) ++ [(v.date, v.value)]).Pairwise pLE := by
    rw [List.pairwise_append]
    refine ⟨?_, by simp, ?_⟩
    · have hs := (bucketsOfE_ok ledger bs hb).1
      exact hs.map _ (fun a b hab => hab)
    · intro a ha b hbm
      simp only [List.mem_singleton] at hbm
      subst hbm
      obtain ⟨x, hx, rfl⟩ := List.mem_map.1 ha
      exact Nat.le_of_lt (hlt x hx)
  have heq : chartSeries bs (v.date, v.value) =
      (bs.map fun b => (b.repDate, b.cum)) ++ [(v.date, v.value)] :=
    List.Sorted.insertionSort_eq hpw
  refine ⟨heq, ?_⟩
  rw [heq, List.getLast?_concat]

set_option maxRecDepth 4000 in
/-- Witness for C4 (amended): valuation dated after the single bucket. -/
theorem valuation_point_terminal_witness :
    chartSeries [⟨"FY 2023-24", ⟨2023, 5, 1⟩, 7, 0, 7, 7⟩] ((⟨2023, 6, 1⟩ : Dte), (9 : ℚ)) =
        ([⟨"FY 2023-24", ⟨2023, 5, 1⟩, 7, 0, 7, 7⟩] : List Bucket).map
          (fun b => (b.repDate, b.cum)) ++ [((⟨2023, 6, 1⟩ : Dte), (9 : ℚ))] ∧
      (chartSeries [⟨"FY 2023-24", ⟨2023, 5, 1⟩, 7, 0, 7, 7⟩]
        ((⟨2023, 6, 1⟩ : Dte), (9 : ℚ))).getLast? = some (⟨2023, 6, 1⟩, 9) :=
  valuation_point_terminal [⟨DateCell.d ⟨2023, 5, 1⟩, some 7, none⟩]
    [⟨DateCell.d ⟨2023, 6, 1⟩, 9⟩] [⟨"FY 2023-24", ⟨2023, 5, 1⟩, 7, 0, 7, 7⟩] ⟨⟨2023, 6, 1⟩, 9⟩
    (by with_unfolding_all decide) (by with_unfolding_all decide) (by with_unfolding_all decide)

/-- C7: a chart function returns the empty string exactly when its pipeline
raised (never a partial image), and the report builder treats an empty
result from either chart as fatal: it raises "Failed to generate charts"
and produces no PDF bytes. -/
theorem rendering_failure_policy :
    ∀ (ledger : List LedgerRow) (perfAB : List PerfRow) (ws : Sheet)
      (clientName : String) (reportDt : Dte) (fontSize : Nat),
      (generate_performance_chart ledger perfAB = "" ↔
        ∃ e, perfData ledger perfAB = .error e) ∧
      (generate_comparison_chart ws = "" ↔ ∃ e, compData ws = .error e) ∧
      (generate_performance_chart ledger perfAB = "" ∨ generate_comparison_chart ws = "" →
        build_client_pdf_bytes ledger perfAB ws clientName reportDt fontSize =
          .error "Failed to generate charts") ∧
      (∀ out, build_client_pdf_bytes ledger perfAB ws clientName reportDt fontSize = .ok out →
        generate_performance_chart ledger perfAB ≠ "" ∧ generate_comparison_chart ws ≠ "") := by
  intro ledger perfAB ws clientName reportDt fontSize
  have hfatal : generate_performance_chart ledger perfAB = "" ∨
      generate_comparison_chart ws = "" →
      build_client_pdf_bytes ledger perfAB ws clientName reportDt fontSize =
        .error "Failed to generate charts" := by
    intro hor
    simp only [build_client_pdf_bytes]
    rw [if_pos hor]
  refine ⟨?_, ?_, hfatal, ?_⟩
  · constructor
    · intro h
      cases hp : perfData ledger perfAB with
      | error e => exact ⟨e, rfl⟩
      | ok dta =>
        exfalso
        apply renderPerf_ne_empty dta
        simpa only [generate_performance_chart, hp] using h
    · rintro ⟨e, he⟩
      simp [generate_performance_chart, he]
  · constructor
    · intro h
      cases hp : compData ws with
      | error e => exact ⟨e, rfl⟩
      | ok c =>
        exfalso
        apply renderComp_ne_empty c
        simpa only [generate_comparison_chart, hp] using h
    · rintro ⟨e, he⟩
      simp [generate_comparison_chart, he]
  · intro out hok
    constructor
    · intro h
      rw [hfatal (Or.inl h)] at hok
      cases hok
    · intro h
      rw [hfatal (Or.inr h)] at hok
      cases hok

/-- Witness for C7: an empty valuation sheet makes the performance pipeline
raise at `iloc[-1]`, the chart comes back empty, and the builder fails. -/
theorem rendering_failure_policy_witness :
    generate_performance_chart [] [] = "" ∧
      build_client_pdf_bytes [] [] [[PyVal.num 1]] "Client" ⟨2024, 1, 1⟩ 45 =
        .error "Failed to generate charts" :=
  ⟨by with_unfolding_all decide,
    (rendering_failure_policy [] [] [[PyVal.num 1]] "Client" ⟨2024, 1, 1⟩ 45).2.2.1
      (Or.inl (by with_unfolding_all decide))⟩

/-- C8: when the ledger has no qualifying cash-flow row and the valuation
sheet has at least one (parseable) row, the chart series consists solely of
the terminal valuation point, its x-label is the calendar date of that row,
and performance-chart rendering succeeds with a non-empty image. -/
theorem empty_ledger_single_point :
    ∀ (ledger : List LedgerRow) (perfAB : List PerfRow) (vs : List ValRow) (v : ValRow),
      qualifying ledger = [] →
      valParsed perfAB = .ok vs →
      vs.getLast? = some v →
      perfData ledger perfAB = .ok ([(v.date, v.value)], [strftimeDMY v.date]) ∧
      generate_performance_chart ledger perfAB ≠ "" := by
  intro ledger perfAB vs v hq hv hl
  have hp : parseDates (qualifying ledger) = .ok [] := by rw [hq]; rfl
  have hb : bucketsOfE ledger = .ok [] := by
    simp only [bucketsOfE, hp]
    rfl
  have hlat : latestOfE perfAB = .ok v := by simp only [latestOfE, hv, hl]
  have hlab : buildLabels [] [(v.date, v.value)] = .ok [strftimeDMY v.date] := by
    simp [buildLabels, buildLabelsGo]
  have hser : chartSeries [] (v.date, v.value) = [(v.date, v.value)] := rfl
  have hpd : perfData ledger perfAB = .ok ([(v.date, v.value)], [strftimeDMY v.date]) := by
    simp only [perfData, hb, hlat, hser, hlab]
  refine ⟨hpd, ?_⟩
  simp only [generate_performance_chart, hpd]
  exact renderPerf_ne_empty _

set_option maxRecDepth 4000 in
/-- Witness for C8: a ledger whose only row is zero-valued and a one-row
valuation sheet. -/
theorem empty_ledger_single_point_witness :
    perfData [⟨DateCell.d ⟨2023, 1, 1⟩, none, some 0⟩] [⟨DateCell.d ⟨2023, 6, 1⟩, 9⟩] =
        .ok ([((⟨2023, 6, 1⟩ : Dte), (9 : ℚ))], [strftimeDMY ⟨2023, 6, 1⟩]) ∧
      generate_performance_chart [⟨DateCell.d ⟨2023, 1, 1⟩, none, some 0⟩]
        [⟨DateCell.d ⟨2023, 6, 1⟩, 9⟩] ≠ "" :=
  empty_ledger_single_point [⟨DateCell.d ⟨2023, 1, 1⟩, none, some 0⟩]
    [⟨DateCell.d ⟨2023, 6, 1⟩, 9⟩] [⟨⟨2023, 6, 1⟩, 9⟩] ⟨⟨2023, 6, 1⟩, 9⟩
    (by with_unfolding_all decide) (by with_unfolding_all decide) rfl

theorem parseDates_bad :
    ∀ (l : List CRow), (∃ x ∈ l, x.date = DateCell.bad) →
      parseDates l = .error "to_datetime" := by
  intro l
  induction l with
  | nil => rintro ⟨x, hx, _⟩; simp at hx
  | cons y t ih =>
    rintro ⟨x, hx, hbad⟩
    rcases List.mem_cons.1 hx with rfl | hxt
    · simp [parseDates, hbad]
    · cases hy : y.date with
      | bad => simp [parseDates, hy]
      | d dv =>
        have ht := ih ⟨x, hxt, hbad⟩
        simp [parseDates, hy, ht]

set_option maxRecDepth 4000 in
/-- C6 counterexample: a ledger row with an unparseable date and a non-zero
amount makes `pd.to_datetime` raise; the performance chart comes back empty
and report generation terminates with an error, so malformed dates are not
coerced to zero. -/
theorem malformed_date_fatal_cex :
    generate_performance_chart [⟨DateCell.bad, some 5, none⟩]
        [⟨DateCell.d ⟨2023, 6, 1⟩, 9⟩] = "" ∧
      build_client_pdf_bytes [⟨DateCell.bad, some 5, none⟩] [⟨DateCell.d ⟨2023, 6, 1⟩, 9⟩]
        [[PyVal.num 1]] "Client" ⟨2023, 6, 1⟩ 45 = .error "Failed to generate charts" :=
  ⟨by with_unfolding_all decide, by with_unfolding_all decide⟩

/-- C6 as amended: the helper `clean_number` does coerce unparseable values
to zero, but the chart pipeline never calls it; a ledger row with an
unparseable date that survives the zero-row filter makes date parsing
raise, the chart function returns an empty result, and report generation
terminates with an error.  (A bad-date row whose coerced amounts are both
zero is dropped before parsing and is harmless.) -/
theorem malformed_value_handling :
    (∀ t : String,
      (stripCurrency t = "" ∨ stripCurrency t = "nan" ∨ stripCurrency t = "None" ∨
        parseFloatChars (stripCurrency t).data = none) →
      clean_number (PyVal.s t) = 0) ∧
    (∀ (ledger : List LedgerRow) (perfAB : List PerfRow) (ws : Sheet)
       (clientName : String) (reportDt : Dte) (fontSize : Nat),
      (∃ r ∈ ledger, r.date = DateCell.bad ∧
        (r.added.getD 0 ≠ 0 ∨ r.withdrawn.getD 0 ≠ 0)) →
      generate_performance_chart ledger perfAB = "" ∧
      build_client_pdf_bytes ledger perfAB ws clientName reportDt fontSize =
        .error "Failed to generate charts") := by
  constructor
  · intro t h
    simp only [clean_number]
    rcases h with h | h | h | h
    · rw [if_pos (Or.inl h)]
    · rw [if_pos (Or.inr (Or.inl h))]
    · rw [if_pos (Or.inr (Or.inr h))]
    · by_cases hx : stripCurrency t = "" ∨ stripCurrency t = "nan" ∨ stripCurrency t = "None"
      · rw [if_pos hx]
      · rw [if_neg hx, h]
  · rintro ledger perfAB ws clientName reportDt fontSize ⟨r, hmem, hbad, hnz⟩
    have hqmem : (⟨r.date, r.added.getD 0, r.withdrawn.getD 0⟩ : CRow) ∈ qualifying ledger := by
      refine List.mem_filter.2 ⟨?_, decide_eq_true hnz⟩
      exact List.mem_map.2 ⟨r, hmem, rfl⟩
    have hpar : parseDates (qualifying ledger) = .error "to_datetime" :=
      parseDates_bad _ ⟨⟨r.date, r.added.getD 0, r.withdrawn.getD 0⟩, hqmem, hbad⟩
    have hgen : generate_performance_chart ledger perfAB = "" := by
      simp [generate_performance_chart, perfData, bucketsOfE, hpar]
    refine ⟨hgen, ?_⟩
    simp only [build_client_pdf_bytes]
    rw [if_pos (Or.inl hgen)]

set_option maxRecDepth 4000 in
/-- Witness for C6 (amended) at a concrete malformed-date workbook. -/
theorem malformed_value_handling_witness :
    generate_performance_chart [⟨DateCell.bad, some 7, none⟩] [] = "" ∧
      build_client_pdf_bytes [⟨DateCell.bad, some 7, none⟩] [] [[PyVal.num 1]] "C"
        ⟨2024, 1, 1⟩ 45 = .error "Failed to generate charts" :=
  malformed_value_handling.2 [⟨DateCell.bad, some 7, none⟩] [] [[PyVal.num 1]] "C"
    ⟨2024, 1, 1⟩ 45
    ⟨⟨DateCell.bad, some 7, none⟩, by simp, rfl, Or.inl (by norm_num)⟩

/-- C9: client-name extraction returns the middle underscore-delimited
tokens joined by spaces and title-cased when the stem has at least four
tokens — "Portfolio_Computation_Jane_Doe_March" (with or without an
extension) yields "Jane Doe" — and the placeholder "Client" otherwise. -/
theorem client_name_extraction :
    extract_client_name_from_filename "Portfolio_Computation_Jane_Doe_March" = "Jane Doe" ∧
    extract_client_name_from_filename "Portfolio_Computation_Jane_Doe_March.xlsx" = "Jane Doe" ∧
    (∀ f : String, 4 ≤ ((splitext f).splitOn "_").length →
      extract_client_name_from_filename f =
        pyTitle (String.intercalate " " ((((splitext f).splitOn "_").drop 2).dropLast))) ∧
    (∀ f : String, ((splitext f).splitOn "_").length < 4 →
      extract_client_name_from_filename f = "Client") := by
  refine ⟨by with_unfolding_all decide, by with_unfolding_all decide, ?_, ?_⟩
  · intro f h
    simp only [extract_client_name_from_filename]
    rw [if_pos h]
  · intro f h
    simp only [extract_client_name_from_filename]
    rw [if_neg (by omega)]

/-- Witness for C9: a two-token filename falls back to "Client". -/
theorem client_name_extraction_witness :
    ((splitext "a_b.xlsx").splitOn "_").length < 4 ∧
      extract_client_name_from_filename "a_b.xlsx" = "Client" :=
  ⟨by with_unfolding_all decide,
    client_name_extraction.2.2.2 "a_b.xlsx" (by with_unfolding_all decide)⟩

theorem scanUp_spec (ws : Sheet) :
    ∀ (k r : Nat), scanUp ws k = some r →
      falsy (cellAt ws r 1) = false ∧ r ≤ k ∧
      ∀ r', r < r' → r' ≤ k → falsy (cellAt ws r' 1) = true := by
  intro k
  induction k with
  | zero => intro r h; simp [scanUp] at h
  | succ k ih =>
    intro r h
    by_cases hf : falsy (cellAt ws (k + 1) 1) = true
    · rw [scanUp, if_pos hf] at h
      obtain ⟨h1, h2, h3⟩ := ih r h
      refine ⟨h1, by omega, ?_⟩
      intro r' hlt hle
      rcases Nat.lt_or_ge r' (k + 1) with hc | hc
      · exact h3 r' hlt (by omega)
      · have : r' = k + 1 := by omega
        rw [this]
        exact hf
    · rw [scanUp, if_neg hf] at h
      have hr : k + 1 = r := Option.some.inj h
      subst hr
      exact ⟨Bool.eq_false_iff.2 hf, Nat.le_refl _, fun r' hlt hle => by omega⟩

theorem orZeroV_falsy {v : PyVal} (h : falsy v = true) : orZeroV v = PyVal.num 0 := by
  simp [orZeroV, h]

theorem pyPct2_zero : pyPct2 0 = "0.00%" := by with_unfolding_all decide

theorem pctStrOf_falsy {v : PyVal} (h : falsy v = true) :
    pctStrOf v = "0%" ∨ pctStrOf v = "0.00%" := by
  cases v with
  | none_ => exact Or.inl rfl
  | num q =>
    have hq : q = 0 := of_decide_eq_true h
    subst hq
    exact Or.inr pyPct2_zero
  | s t =>
    have ht : t = "" := of_decide_eq_true h
    subst ht
    exact Or.inl rfl

/-- C10: the snapshot scan treats every falsy first-column cell (empty,
empty string, or the number 0) as unpopulated — the selected row has a
non-falsy first column, so a row whose first column holds 0 is skipped and
never selected — and on the selected row falsy value cells read as the
number 0 while falsy percentage cells render as a zero percentage. -/
theorem snapshot_falsy_cells :
    ∀ (ws : Sheet) (r : Nat), lastPopRow ws = some r →
      falsy (cellAt ws r 1) = false ∧
      cellAt ws r 1 ≠ PyVal.num 0 ∧
      (∀ r', r < r' → r' ≤ ws.length → falsy (cellAt ws r' 1) = true) ∧
      ∀ c, compData ws = .ok c →
        (falsy (cellAt ws r 2) = true → c.pinkbullValue = PyVal.num 0) ∧
        (falsy (cellAt ws r 5) = true → c.marketValue = PyVal.num 0) ∧
        (falsy (cellAt ws r 4) = true →
          c.pinkbullPct = "0%" ∨ c.pinkbullPct = "0.00%") ∧
        (falsy (cellAt ws r 7) = true →
          c.marketPct = "0%" ∨ c.marketPct = "0.00%") ∧
        (falsy (cellAt ws r 11) = true →
          c.pinkbullXirrStr = "0.00%" ∧ c.pinkbullXirrBar = 0) ∧
        (falsy (cellAt ws r 12) = true →
          c.marketXirrStr = "0.00%" ∧ c.marketXirrBar = 0) := by
  intro ws r h
  obtain ⟨h1, h2, h3⟩ := scanUp_spec ws ws.length r h
  refine ⟨h1, ?_, h3, ?_⟩
  · intro heq
    rw [heq] at h1
    simp [falsy] at h1
  · intro c hc
    rw [compData, h] at hc
    have hc2 := (Except.ok.inj hc).symm
    subst hc2
    refine ⟨?_, ?_, ?_, ?_, ?_, ?_⟩
    · intro hf; exact orZeroV_falsy hf
    · intro hf; exact orZeroV_falsy hf
    · intro hf; exact pctStrOf_falsy hf
    · intro hf; exact pctStrOf_falsy hf
    · intro hf
      rw [orZeroV_falsy hf]
      refine ⟨pyPct2_zero, ?_⟩
      show (0 : ℚ) * 100 = 0
      norm_num
    · intro hf
      rw [orZeroV_falsy hf]
      refine ⟨pyPct2_zero, ?_⟩
      show (0 : ℚ) * 100 = 0
      norm_num

/-- Witness for C10: a sheet whose last row has a zero first column, so the
scan selects the row below it. -/
theorem snapshot_falsy_cells_witness :
    lastPopRow [[PyVal.num 1, PyVal.none_], [PyVal.num 0, PyVal.num 5]] = some 1 ∧
      cellAt [[PyVal.num 1, PyVal.none_], [PyVal.num 0, PyVal.num 5]] 1 1 ≠ PyVal.num 0 :=
  ⟨by with_unfolding_all decide,
    (snapshot_falsy_cells [[PyVal.num 1, PyVal.none_], [PyVal.num 0, PyVal.num 5]] 1
      (by with_unfolding_all decide)).2.1⟩

end Report
